import Mathlib

/-!
Verification of the inventory-management warehouse engine.

Shallow embedding of the stock-ledger operations (`src/tools/inventory_tools.py`),
the warehouse-graph builder and route anchor and putaway advisor
(`src/tools/operations_tools.py`), and the days-of-cover computation
(`src/tools/replenishment_tools.py`).

Modelling conventions:
* Quantities are `Int` (the source uses Python ints).
* Coordinates and demand rates are `ℚ` (the source uses Python floats; the
  claims under study are about control flow and exact comparisons, not
  floating-point rounding).
* Timestamps (`datetime.utcnow()`) are an abstract `Nat` passed in as `now`.
* Each ledger tool resolves its product/location/inventory row and then
  mutates one inventory row, one location row and appends audit rows inside
  one transaction.  The embedding starts after the successful resolution of
  the entities (the not-found early returns are identity-lookup plumbing that
  no claim is about) and passes the resolved state explicitly.
* The source reports errors as `{"error": msg}` dictionaries.  The error
  messages that the ledger can produce are modelled by `LedgerError`
  constructors; the taxonomy also has constructors for errors the
  specification names (`capacityExceeded`, `reconciliationBelowAllocated`)
  so that claims about them are statable — the embedded code, like the
  source, has no branch producing them.
-/

/-- Location types, from `LocationType` in `src/models/inventory.py`. -/
inductive LocationType where
  | receiving
  | storage
  | picking
  | packing
  | shipping
  | coldStorage
  | hazmat
deriving DecidableEq, Repr

/-- Movement types, from `MovementType` in `src/models/inventory.py`
(`RETURN` is spelled `ret` because `return` is reserved). -/
inductive MovementType where
  | receiving
  | putaway
  | pick
  | transfer
  | adjustment
  | ret
  | writeOff
deriving DecidableEq, Repr

/-- The ledger error taxonomy.  The first four are the `{"error": ...}`
returns of `update_stock_quantity`, `allocate_stock` and `deallocate_stock`;
`capacityExceeded` and `reconciliationBelowAllocated` are the errors the
specification requires, included so claims about them can be stated. -/
inductive LedgerError where
  | insufficientStock
  | noInventoryToRemove
  | noInventory
  | insufficientAvailable
  | overDeallocation
  | capacityExceeded
  | reconciliationBelowAllocated
deriving DecidableEq, Repr

/-- A warehouse location row (`Location` in `src/models/inventory.py`),
restricted to the columns the tools under verification read or write. -/
structure Location where
  code : String
  zone : String
  aisle : String
  locationType : LocationType
  capacityUnits : Int
  currentUnits : Int
  x : ℚ
  y : ℚ
  z : ℚ
  isActive : Bool
  hasTemperatureControl : Bool
deriving DecidableEq, Repr

/-- An inventory row (`InventoryItem` in `src/models/inventory.py`),
restricted to the columns the ledger tools read or write. -/
structure InventoryItem where
  quantityOnHand : Int
  quantityAllocated : Int
  quantityAvailable : Int
  lotNumber : Option String
  lastCountedAt : Option Nat
  lastMovementAt : Option Nat
deriving DecidableEq, Repr

/-- An audit row (`AuditLog` in `src/models/inventory.py`), restricted to
the columns the ledger tools set. -/
structure AuditEntry where
  entityType : String
  action : String
  movementType : Option MovementType
  quantityBefore : Option Int
  quantityAfter : Option Int
  quantityChange : Int
  reason : Option String
  referenceNumber : Option String
  performedBy : Option String
  agentName : String
deriving DecidableEq, Repr

/-- The slice of database state one ledger transaction touches: the
(product, location) inventory row (absent if never created), the location
row, and the audit table. -/
structure LedgerState where
  item : Option InventoryItem
  location : Location
  audit : List AuditEntry
deriving DecidableEq, Repr

/-- The Stock Record invariant of spec §8: nonnegative allocation bounded
by on-hand, and available derived. -/
def stockInvariant (it : InventoryItem) : Prop :=
  0 ≤ it.quantityAllocated ∧ it.quantityAllocated ≤ it.quantityOnHand ∧
    it.quantityAvailable = it.quantityOnHand - it.quantityAllocated

instance (it : InventoryItem) : Decidable (stockInvariant it) := by
  unfold stockInvariant; infer_instance

/-- The mutation tail of `update_stock_quantity`
(`src/tools/inventory_tools.py:166`–207), applied to the found-or-created
row: rejects a change that would drive on-hand negative, otherwise sets
on-hand, recomputes available, stamps last-movement, adds the change to the
location's `current_units` (no capacity check appears in the source) and
appends one audit row. -/
def apply_stock_change (s : LedgerState) (it : InventoryItem)
    (quantityChange : Int) (movementType : MovementType)
    (reason reference : Option String) (now : Nat) :
    Except LedgerError LedgerState :=
  let previousQuantity := it.quantityOnHand
  let newQuantity := previousQuantity + quantityChange
  if newQuantity < 0 then
    Except.error LedgerError.insufficientStock
  else
    let item' : InventoryItem :=
      { it with quantityOnHand := newQuantity,
                quantityAvailable := newQuantity - it.quantityAllocated,
                lastMovementAt := some now }
    let location' : Location :=
      { s.location with
          currentUnits := s.location.currentUnits + quantityChange }
    let entry : AuditEntry :=
      { entityType := "inventory_item", action := "stock_update",
        movementType := some movementType,
        quantityBefore := some previousQuantity,
        quantityAfter := some newQuantity,
        quantityChange := quantityChange,
        reason := reason, referenceNumber := reference,
        performedBy := none, agentName := "tracking_agent" }
    Except.ok
      { item := some item', location := location',
        audit := s.audit ++ [entry] }

/-- The find-or-create head of `update_stock_quantity`
(`src/tools/inventory_tools.py:144`–164): a missing row with a negative
change is rejected, a missing row with a nonnegative change is created
zeroed, and then `apply_stock_change` is the common mutation tail. -/
def update_stock_quantity (s : LedgerState) (quantityChange : Int)
    (movementType : MovementType) (reason reference : Option String)
    (now : Nat) : Except LedgerError LedgerState :=
  match s.item with
  | none =>
      if quantityChange < 0 then
        Except.error LedgerError.noInventoryToRemove
      else
        apply_stock_change s
          { quantityOnHand := 0, quantityAllocated := 0,
            quantityAvailable := 0, lotNumber := none,
            lastCountedAt := none, lastMovementAt := none }
          quantityChange movementType reason reference now
  | some it =>
      apply_stock_change s it quantityChange movementType reason reference
        now

/-- `allocate_stock` (`src/tools/inventory_tools.py:448`–525), after
resolution.  Rejects when the freshly computed available quantity is below
the request; otherwise increments allocated, recomputes available and
appends one audit row tagged with the order reference.  The location row is
read but never written by the source. -/
def allocate_stock (s : LedgerState) (quantity : Int)
    (orderReference : String) : Except LedgerError LedgerState :=
  match s.item with
  | none => Except.error LedgerError.noInventory
  | some it =>
      let available := it.quantityOnHand - it.quantityAllocated
      if available < quantity then
        Except.error LedgerError.insufficientAvailable
      else
        let item' : InventoryItem :=
          { it with quantityAllocated := it.quantityAllocated + quantity,
                    quantityAvailable :=
                      it.quantityOnHand - (it.quantityAllocated + quantity) }
        let entry : AuditEntry :=
          { entityType := "inventory_item", action := "allocation",
            movementType := none, quantityBefore := none,
            quantityAfter := none, quantityChange := quantity,
            reason := some ("Stock allocated for order " ++ orderReference),
            referenceNumber := some orderReference,
            performedBy := none, agentName := "operations_agent" }
        Except.ok
          { item := some item', location := s.location,
            audit := s.audit ++ [entry] }

/-- `deallocate_stock` (`src/tools/inventory_tools.py:528`–601), after
resolution.  Rejects when more than the allocated quantity is released;
otherwise decrements allocated, recomputes available and appends one audit
row with the negated change. -/
def deallocate_stock (s : LedgerState) (quantity : Int) (reason : String) :
    Except LedgerError LedgerState :=
  match s.item with
  | none => Except.error LedgerError.noInventory
  | some it =>
      if it.quantityAllocated < quantity then
        Except.error LedgerError.overDeallocation
      else
        let item' : InventoryItem :=
          { it with quantityAllocated := it.quantityAllocated - quantity,
                    quantityAvailable :=
                      it.quantityOnHand - (it.quantityAllocated - quantity) }
        let entry : AuditEntry :=
          { entityType := "inventory_item", action := "deallocation",
            movementType := none, quantityBefore := none,
            quantityAfter := none, quantityChange := -quantity,
            reason := some reason, referenceNumber := none,
            performedBy := none, agentName := "operations_agent" }
        Except.ok
          { item := some item', location := s.location,
            audit := s.audit ++ [entry] }

/-- The summary fields of a successful `reconcile_inventory` return value. -/
structure ReconcileInfo where
  systemQuantity : Int
  countedQuantity : Int
  variance : Int
  adjustmentMade : Bool
deriving DecidableEq, Repr

/-- `reconcile_inventory` (`src/tools/inventory_tools.py:215`–330), after
resolution.  With zero variance it only stamps the count time.  Otherwise it
creates the row at the counted quantity or overwrites on-hand with the
counted quantity, recomputes available from the untouched allocation, stamps
both timestamps and appends one audit row carrying the signed variance.  The
source has no rejection branch: it never returns an error after resolution. -/
def reconcile_inventory (s : LedgerState) (countedQuantity : Int)
    (performedBy : String) (reason : Option String) (now : Nat) :
    Except LedgerError (LedgerState × ReconcileInfo) :=
  let systemQuantity :=
    match s.item with
    | some it => it.quantityOnHand
    | none => 0
  let variance := countedQuantity - systemQuantity
  if variance = 0 then
    let item' := s.item.map (fun it => { it with lastCountedAt := some now })
    Except.ok
      ({ item := item', location := s.location, audit := s.audit },
       { systemQuantity := systemQuantity,
         countedQuantity := countedQuantity,
         variance := 0, adjustmentMade := false })
  else
    let base : InventoryItem :=
      match s.item with
      | none =>
          { quantityOnHand := countedQuantity, quantityAllocated := 0,
            quantityAvailable := countedQuantity, lotNumber := none,
            lastCountedAt := none, lastMovementAt := none }
      | some it =>
          { it with quantityOnHand := countedQuantity,
                    quantityAvailable :=
                      countedQuantity - it.quantityAllocated }
    let item' : InventoryItem :=
      { base with lastCountedAt := some now, lastMovementAt := some now }
    let entry : AuditEntry :=
      { entityType := "inventory_item", action := "reconciliation",
        movementType := some MovementType.adjustment,
        quantityBefore := some systemQuantity,
        quantityAfter := some countedQuantity,
        quantityChange := variance,
        reason :=
          some (reason.getD ("Cycle count reconciliation by " ++ performedBy)),
        referenceNumber := none, performedBy := some performedBy,
        agentName := "audit_agent" }
    Except.ok
      ({ item := some item', location := s.location,
         audit := s.audit ++ [entry] },
       { systemQuantity := systemQuantity,
         countedQuantity := countedQuantity,
         variance := variance, adjustmentMade := true })

/-- Projection: the inventory row committed by a ledger call, if it succeeded. -/
def ledgerItem (r : Except LedgerError LedgerState) : Option InventoryItem :=
  match r with
  | Except.ok s => s.item
  | Except.error _ => none

/-- Projection: the location row committed by a ledger call, if it succeeded. -/
def ledgerLocation (r : Except LedgerError LedgerState) : Option Location :=
  match r with
  | Except.ok s => some s.location
  | Except.error _ => none

/-- Projection: the available quantity committed by a reconcile call. -/
def reconciledAvailable
    (r : Except LedgerError (LedgerState × ReconcileInfo)) : Option Int :=
  match r with
  | Except.ok (s, _) => s.item.map (fun it => it.quantityAvailable)
  | Except.error _ => none

/-- Squared Euclidean distance between two locations.  The source's
`_calculate_distance` (`src/tools/operations_tools.py:27`–33) computes
`sqrt` of this; the builder keeps the square so it stays executable and the
comparison with the threshold 20 is translated to a comparison with 400
(`euclidean_distance_lt_iff` below proves the two tests equivalent). -/
def distSq (l1 l2 : Location) : ℚ :=
  (l1.x - l2.x) ^ 2 + (l1.y - l2.y) ^ 2 + (l1.z - l2.z) ^ 2

/-- `_calculate_distance`: the Euclidean distance between two locations. -/
noncomputable def calculate_distance (l1 l2 : Location) : ℝ :=
  Real.sqrt ((distSq l1 l2 : ℚ) : ℝ)

/-- One undirected edge of the warehouse graph.  `crossAisle` records which
branch of the builder created it: `false` for the same-zone/same-aisle
branch (weight = distance), `true` for the same-zone proximity branch
(weight = distance × 1.5). -/
structure GraphEdge where
  a : String
  b : String
  distSq : ℚ
  crossAisle : Bool
deriving DecidableEq, Repr

/-- The weight `networkx` stores on the edge: the Euclidean distance, with
the 1.5 aisle-crossing penalty on proximity edges. -/
noncomputable def GraphEdge.weight (e : GraphEdge) : ℝ :=
  (if e.crossAisle then (1.5 : ℝ) else 1) * Real.sqrt ((e.distSq : ℚ) : ℝ)

/-- The edge the builder's inner loop adds for the ordered pair
`(loc1, loc2)` (`src/tools/operations_tools.py:57`–67): same zone and aisle
gives a direct edge; otherwise same zone within distance 20 gives a
penalized edge; otherwise none. -/
def mkEdge (l1 l2 : Location) : Option GraphEdge :=
  if l1.zone = l2.zone ∧ l1.aisle = l2.aisle then
    some { a := l1.code, b := l2.code, distSq := distSq l1 l2,
           crossAisle := false }
  else if l1.zone = l2.zone ∧ distSq l1 l2 < 400 then
    some { a := l1.code, b := l2.code, distSq := distSq l1 l2,
           crossAisle := true }
  else
    none

/-- The builder's double loop `for i, loc1 in enumerate(locations): for loc2
in locations[i+1:]`: every ordered pair with the first element strictly
earlier in the list is offered to `mkEdge`. -/
def edgePairs : List Location → List GraphEdge
  | [] => []
  | l :: rest => rest.filterMap (mkEdge l) ++ edgePairs rest

/-- The warehouse graph: the active locations as nodes (in insertion order,
as `networkx` preserves it), and the pairwise edges. -/
structure WarehouseGraph where
  nodes : List Location
  edges : List GraphEdge
deriving DecidableEq, Repr

/-- `_build_warehouse_graph` (`src/tools/operations_tools.py:36`–69):
nodes are all active locations, edges come from the pairwise loop. -/
def build_warehouse_graph (locations : List Location) : WarehouseGraph :=
  let active := locations.filter (fun l => l.isActive)
  { nodes := active, edges := edgePairs active }

/-- Whether the undirected graph has an edge between two location codes. -/
def adjacent (G : WarehouseGraph) (c1 c2 : String) : Bool :=
  G.edges.any (fun e => (e.a = c1 ∧ e.b = c2) ∨ (e.a = c2 ∧ e.b = c1))

/-- The first stored edge between two location codes, either orientation. -/
def edgeBetween (G : WarehouseGraph) (c1 c2 : String) : Option GraphEdge :=
  G.edges.find? (fun e => (e.a = c1 ∧ e.b = c2) ∨ (e.a = c2 ∧ e.b = c1))

/-- The start/end anchor of `generate_pick_route`
(`src/tools/operations_tools.py:127`–132): the first shipping-type node of
the graph, or, absent one, `list(G.nodes())[0]` — the first node in
insertion order.  `none` only when the graph has no nodes (the tool returns
an error before this point in that case). -/
def start_location (G : WarehouseGraph) : Option String :=
  match G.nodes.filter (fun l => l.locationType = LocationType.shipping) with
  | s :: _ => some s.code
  | [] => (G.nodes.map (fun l => l.code)).head?

/-- The product columns the putaway advisor reads
(`Product` in `src/models/inventory.py`). -/
structure Product where
  sku : String
  requiresColdStorage : Bool
  isHazmat : Bool
  velocityClass : String
deriving DecidableEq, Repr

/-- An inventory row of the put-away product together with its resolved
`inv.location` relationship, as the advisor's consolidation loop reads it. -/
structure ExistingInventory where
  location : Location
  quantityOnHand : Int
  lotNumber : Option String
deriving DecidableEq, Repr

/-- One suggestion dictionary built by `get_optimal_putaway_location`. -/
structure PutawaySuggestion where
  locationCode : String
  zone : String
  aisle : String
  availableCapacity : Int
  existingQuantity : Int
  consolidation : Bool
  sameLot : Bool
  priority : Int
  reason : String
deriving DecidableEq, Repr

/-- The successful return value of `get_optimal_putaway_location`. -/
structure PutawayResult where
  requiredLocationType : LocationType
  suggestions : List PutawaySuggestion
deriving DecidableEq, Repr

/-- The putaway error (`{"error": "No suitable locations with sufficient
capacity"}`). -/
inductive PutawayError where
  | noSuitableLocation
deriving DecidableEq, Repr

/-- The required location category from the product flags
(`src/tools/operations_tools.py:245`–251). -/
def required_location_type (p : Product) : LocationType :=
  if p.requiresColdStorage then LocationType.coldStorage
  else if p.isHazmat then LocationType.hazmat
  else LocationType.storage

/-- The candidate-location query (`src/tools/operations_tools.py:253`–262):
active, of the required type, enough free capacity, and temperature
controlled when the product needs cold storage. -/
def putaway_candidate (p : Product) (quantity : Int) (loc : Location) :
    Bool :=
  loc.isActive && loc.locationType = required_location_type p &&
    quantity ≤ loc.capacityUnits - loc.currentUnits &&
    (!p.requiresColdStorage || loc.hasTemperatureControl)

/-- The velocity-class preferred-zone table
(`src/tools/operations_tools.py:301`–302), a dict lookup with default. -/
def velocity_zones (velocityClass : String) : List String :=
  if velocityClass = "A" then ["A", "B"]
  else if velocityClass = "B" then ["B", "C"]
  else if velocityClass = "C" then ["C", "D", "E"]
  else ["C", "D"]

/-- Stable insertion of one element: it goes in front of the first element
it is strictly below.  `insertionSort` with this is exactly a stable sort by
the Python key, matching `list.sort` (Timsort is also stable, and stable
sorts by the same key coincide). -/
def insertStable {α : Type} (lt : α → α → Bool) (x : α) :
    List α → List α
  | [] => [x]
  | y :: ys => if lt x y then x :: y :: ys else y :: insertStable lt x ys

/-- Stable insertion sort, used to model `suggestions.sort(key=...)`. -/
def stableSort {α : Type} (lt : α → α → Bool) : List α → List α
  | [] => []
  | x :: xs => insertStable lt x (stableSort lt xs)

/-- The Python sort key `(priority, -available_capacity)`, as a strict
lexicographic comparison. -/
def suggestionLt (s1 s2 : PutawaySuggestion) : Bool :=
  s1.priority < s2.priority ||
    (s1.priority = s2.priority && s2.availableCapacity < s1.availableCapacity)

/-- The consolidation suggestion the advisor builds for one existing
inventory row (`src/tools/operations_tools.py:281`–297): only the remaining
capacity of `inv.location` is checked — not the location's type, activity or
temperature control. -/
def consolidationSuggestion (quantity : Int) (lotNumber : Option String)
    (inv : ExistingInventory) : Option PutawaySuggestion :=
  let availableCapacity :=
    inv.location.capacityUnits - inv.location.currentUnits
  if quantity ≤ availableCapacity then
    some { locationCode := inv.location.code, zone := inv.location.zone,
           aisle := inv.location.aisle,
           availableCapacity := availableCapacity,
           existingQuantity := inv.quantityOnHand, consolidation := true,
           sameLot := inv.lotNumber = lotNumber,
           priority := if inv.lotNumber = lotNumber then 1 else 2,
           reason := "Consolidate with existing stock" }
  else
    none

/-- The velocity-placement suggestion for one candidate location
(`src/tools/operations_tools.py:304`–317). -/
def velocitySuggestion (preferredZones : List String) (loc : Location) :
    PutawaySuggestion :=
  let inPreferredZone := preferredZones.contains loc.zone
  { locationCode := loc.code, zone := loc.zone, aisle := loc.aisle,
    availableCapacity := loc.capacityUnits - loc.currentUnits,
    existingQuantity := 0, consolidation := false, sameLot := false,
    priority := if inPreferredZone then 3 else 4,
    reason :=
      if inPreferredZone then "Velocity-based placement"
      else "Available capacity" }

/-- `get_optimal_putaway_location` (`src/tools/operations_tools.py:213`–332),
after product resolution.  `existing` is the list of this product's
inventory rows with `quantity_on_hand > 0` (the query's filter), in table
order; `locations` is the full location table in table order. -/
def get_optimal_putaway_location (p : Product) (quantity : Int)
    (lotNumber : Option String) (locations : List Location)
    (existing : List ExistingInventory) :
    Except PutawayError PutawayResult :=
  let candidates := locations.filter (putaway_candidate p quantity)
  if candidates.isEmpty then
    Except.error PutawayError.noSuitableLocation
  else
    let consolidation :=
      (existing.filter (fun inv => 0 < inv.quantityOnHand)).filterMap
        (consolidationSuggestion quantity lotNumber)
    let preferredZones := velocity_zones p.velocityClass
    let suggestions :=
      candidates.foldl
        (fun acc loc =>
          if (acc.map (fun s => s.locationCode)).contains loc.code then acc
          else acc ++ [velocitySuggestion preferredZones loc])
        consolidation
    Except.ok
      { requiredLocationType := required_location_type p,
        suggestions := (stableSort suggestionLt suggestions).take 5 }

/-- A days-of-cover figure: finite, or `float('inf')` ("unlimited"). -/
inductive ExtQ where
  | finite (q : ℚ)
  | infinite
deriving DecidableEq, Repr

/-- `e <= c` for a finite bound `c`, as Python compares against `inf`. -/
def ExtQ.leQ (e : ExtQ) (c : ℚ) : Bool :=
  match e with
  | ExtQ.finite q => q ≤ c
  | ExtQ.infinite => false

/-- `e < c` for a finite bound `c`, as Python compares against `inf`. -/
def ExtQ.ltQ (e : ExtQ) (c : ℚ) : Bool :=
  match e with
  | ExtQ.finite q => q < c
  | ExtQ.infinite => false

/-- The status labels of `calculate_days_of_cover`. -/
inductive CoverStatus where
  | outOfStock
  | critical
  | low
  | healthy
deriving DecidableEq, Repr

/-- The fields of the `calculate_days_of_cover` return value the claims are
about. -/
structure DaysOfCoverResult where
  daysOfCover : ExtQ
  daysWithIncoming : ExtQ
  status : CoverStatus
deriving DecidableEq, Repr

/-- `calculate_days_of_cover` (`src/tools/replenishment_tools.py:399`–476),
after resolution and aggregation: `availableStock` is total on-hand minus
total allocated, `incomingQty` the open PO quantity, `reorderPoint` the
product's reorder point.  The second component counts how many divisions by
`average_daily_demand` the call evaluates; the `if`-structure mirrors the
source's lazy evaluation, in particular the `critical` branch's conditional
expression `days_of_cover < reorder_point / average_daily_demand if
average_daily_demand > 0 else 0`, whose division is evaluated only under
the `average_daily_demand > 0` guard and only when the `out_of_stock` test
above it already failed. -/
def calculate_days_of_cover (availableStock incomingQty reorderPoint : Int)
    (averageDailyDemand : ℚ) : DaysOfCoverResult × Nat :=
  let computed : ExtQ × ExtQ × Nat :=
    if averageDailyDemand ≤ 0 then
      (ExtQ.infinite, ExtQ.infinite, 0)
    else
      (ExtQ.finite ((availableStock : ℚ) / averageDailyDemand),
       ExtQ.finite (((availableStock : ℚ) + (incomingQty : ℚ)) /
         averageDailyDemand),
       2)
  match computed with
  | (daysOfCover, daysWithIncoming, divisions) =>
      if daysOfCover.leQ 0 then
        ({ daysOfCover := daysOfCover, daysWithIncoming := daysWithIncoming,
           status := CoverStatus.outOfStock }, divisions)
      else
        let criticalTest : Bool × Nat :=
          if 0 < averageDailyDemand then
            (daysOfCover.ltQ ((reorderPoint : ℚ) / averageDailyDemand),
             divisions + 1)
          else
            (false, divisions)
        match criticalTest with
        | (isCritical, divisions') =>
            if isCritical then
              ({ daysOfCover := daysOfCover,
                 daysWithIncoming := daysWithIncoming,
                 status := CoverStatus.critical }, divisions')
            else if daysOfCover.ltQ 14 then
              ({ daysOfCover := daysOfCover,
                 daysWithIncoming := daysWithIncoming,
                 status := CoverStatus.low }, divisions')
            else
              ({ daysOfCover := daysOfCover,
                 daysWithIncoming := daysWithIncoming,
                 status := CoverStatus.healthy }, divisions')

/-- Projection: the location codes suggested by a putaway call. -/
def putawayCodes (r : Except PutawayError PutawayResult) : List String :=
  match r with
  | Except.ok res => res.suggestions.map (fun s => s.locationCode)
  | Except.error _ => []

/-- A generic active storage location used by the concrete test states. -/
def demoLocation : Location :=
  { code := "A-01", zone := "A", aisle := "1",
    locationType := LocationType.storage, capacityUnits := 100,
    currentUnits := 0, x := 0, y := 0, z := 0, isActive := true,
    hasTemperatureControl := false }

/-- The spec §8 scenario record: on-hand 50, allocated 10, available 40. -/
def itemFifty : InventoryItem :=
  { quantityOnHand := 50, quantityAllocated := 10, quantityAvailable := 40,
    lotNumber := none, lastCountedAt := none, lastMovementAt := none }

/-- Ledger state holding `itemFifty`. -/
def stateFifty : LedgerState :=
  { item := some itemFifty, location := demoLocation, audit := [] }

/-- A consistent record with on-hand 10, allocated 5. -/
def itemTenFive : InventoryItem :=
  { quantityOnHand := 10, quantityAllocated := 5, quantityAvailable := 5,
    lotNumber := none, lastCountedAt := none, lastMovementAt := none }

/-- Ledger state holding `itemTenFive`. -/
def stateTenFive : LedgerState :=
  { item := some itemTenFive, location := demoLocation, audit := [] }

/-- A location already filled to its capacity of 10. -/
def fullLocation : Location :=
  { code := "F-01", zone := "A", aisle := "1",
    locationType := LocationType.storage, capacityUnits := 10,
    currentUnits := 10, x := 0, y := 0, z := 0, isActive := true,
    hasTemperatureControl := false }

/-- Ledger state at the full location with 5 unallocated units on hand. -/
def stateFull : LedgerState :=
  { item := some { quantityOnHand := 5, quantityAllocated := 0,
                   quantityAvailable := 5, lotNumber := none,
                   lastCountedAt := none, lastMovementAt := none },
    location := fullLocation, audit := [] }

/-- An active non-shipping location whose code sorts after `anchorLocA`. -/
def anchorLocB : Location :=
  { code := "B-01", zone := "Z", aisle := "2",
    locationType := LocationType.storage, capacityUnits := 100,
    currentUnits := 0, x := 0, y := 0, z := 0, isActive := true,
    hasTemperatureControl := false }

/-- An active non-shipping location with the lowest code of its graph. -/
def anchorLocA : Location :=
  { code := "A-00", zone := "Z", aisle := "1",
    locationType := LocationType.storage, capacityUnits := 100,
    currentUnits := 0, x := 5, y := 0, z := 0, isActive := true,
    hasTemperatureControl := false }

/-- A product that requires cold storage. -/
def coldProduct : Product :=
  { sku := "SKU-COLD", requiresColdStorage := true, isHazmat := false,
    velocityClass := "A" }

/-- An active temperature-controlled cold-storage location with capacity. -/
def coldLocation : Location :=
  { code := "COLD-1", zone := "A", aisle := "1",
    locationType := LocationType.coldStorage, capacityUnits := 100,
    currentUnits := 0, x := 0, y := 0, z := 0, isActive := true,
    hasTemperatureControl := true }

/-- An active generic-storage location without temperature control. -/
def plainLocation : Location :=
  { code := "GEN-1", zone := "C", aisle := "3",
    locationType := LocationType.storage, capacityUnits := 100,
    currentUnits := 0, x := 0, y := 0, z := 0, isActive := true,
    hasTemperatureControl := false }

/-- The `days_of_cover` field of `calculate_reorder_point`
(`src/tools/replenishment_tools.py:83`): `total_stock /
average_daily_demand` under an explicit `average_daily_demand > 0` guard,
else `float('inf')`.  Second component again counts divisions by the
demand. -/
def reorder_point_days_of_cover (totalStock : Int)
    (averageDailyDemand : ℚ) : ExtQ × Nat :=
  if 0 < averageDailyDemand then
    (ExtQ.finite ((totalStock : ℚ) / averageDailyDemand), 1)
  else
    (ExtQ.infinite, 0)

/-- Projection: whether a reconcile call committed (did not error). -/
def reconcileSucceeded
    (r : Except LedgerError (LedgerState × ReconcileInfo)) : Bool :=
  match r with
  | Except.ok _ => true
  | Except.error _ => false

/-- The state `update_stock_quantity stateFull 5 ...` commits: the location
is over capacity at 15 of 10 units. -/
def stateFullUpdated : LedgerState :=
  { item := some { quantityOnHand := 10, quantityAllocated := 0,
                   quantityAvailable := 10, lotNumber := none,
                   lastCountedAt := none, lastMovementAt := some 1 },
    location := { code := "F-01", zone := "A", aisle := "1",
                  locationType := LocationType.storage,
                  capacityUnits := 10, currentUnits := 15,
                  x := 0, y := 0, z := 0, isActive := true,
                  hasTemperatureControl := false },
    audit := [{ entityType := "inventory_item", action := "stock_update",
                movementType := some MovementType.receiving,
                quantityBefore := some 5, quantityAfter := some 10,
                quantityChange := 5, reason := none,
                referenceNumber := none, performedBy := none,
                agentName := "tracking_agent" }] }

/-- The state `allocate_stock stateFifty 40 "ORD-1"` commits. -/
def stateFiftyAllocated : LedgerState :=
  { item := some { quantityOnHand := 50, quantityAllocated := 50,
                   quantityAvailable := 0, lotNumber := none,
                   lastCountedAt := none, lastMovementAt := none },
    location := demoLocation,
    audit := [{ entityType := "inventory_item", action := "allocation",
                movementType := none, quantityBefore := none,
                quantityAfter := none, quantityChange := 40,
                reason := some "Stock allocated for order ORD-1",
                referenceNumber := some "ORD-1", performedBy := none,
                agentName := "operations_agent" }] }

/-- C9: with zero (or negative) average daily demand, neither days-of-cover
computation evaluates a single division by the demand — the `critical`
status branch's conditional expression is guarded by `average_daily_demand
> 0` and is lazily evaluated — and the days of cover is the unlimited
value. -/
theorem days_of_cover_zero_demand
    (availableStock incomingQty reorderPoint totalStock : Int)
    (averageDailyDemand : ℚ) (h : averageDailyDemand ≤ 0) :
    calculate_days_of_cover availableStock incomingQty reorderPoint
        averageDailyDemand =
      ({ daysOfCover := ExtQ.infinite, daysWithIncoming := ExtQ.infinite,
         status := CoverStatus.healthy }, 0) ∧
    reorder_point_days_of_cover totalStock averageDailyDemand =
      (ExtQ.infinite, 0) := by
  constructor
  · unfold calculate_days_of_cover
    rw [if_pos h]
    simp [ExtQ.leQ, ExtQ.ltQ, not_lt.mpr h]
  · unfold reorder_point_days_of_cover
    rw [if_neg (not_lt.mpr h)]

/-- Witness for `days_of_cover_zero_demand` at demand 0. -/
theorem days_of_cover_zero_demand_witness :
    calculate_days_of_cover 5 0 10 0 =
      ({ daysOfCover := ExtQ.infinite, daysWithIncoming := ExtQ.infinite,
         status := CoverStatus.healthy }, 0) ∧
    reorder_point_days_of_cover 7 0 = (ExtQ.infinite, 0) :=
  days_of_cover_zero_demand 5 0 10 7 0 (le_refl (0 : ℚ))

/-- C4: an allocate call on an existing stock record fails with the
insufficient-available error exactly when the available quantity (on-hand
minus allocated) is below the request; otherwise it commits the incremented
allocation with recomputed availability and one audit row tagged with the
order reference.  Concretely, on the on-hand-50/allocated-10 record an
allocate of 45 fails and an allocate of 40 succeeds leaving available 0. -/
theorem allocate_stock_spec (s : LedgerState) (it : InventoryItem)
    (q : Int) (ref : String) (hit : s.item = some it) :
    (allocate_stock s q ref =
        Except.error LedgerError.insufficientAvailable ↔
      it.quantityOnHand - it.quantityAllocated < q) ∧
    (¬(it.quantityOnHand - it.quantityAllocated < q) →
      allocate_stock s q ref = Except.ok
        { item := some
            { it with quantityAllocated := it.quantityAllocated + q,
                      quantityAvailable :=
                        it.quantityOnHand - (it.quantityAllocated + q) },
          location := s.location,
          audit := s.audit ++
            [{ entityType := "inventory_item", action := "allocation",
               movementType := none, quantityBefore := none,
               quantityAfter := none, quantityChange := q,
               reason := some ("Stock allocated for order " ++ ref),
               referenceNumber := some ref, performedBy := none,
               agentName := "operations_agent" }] }) ∧
    (allocate_stock stateFifty 45 "ORD-1" =
      Except.error LedgerError.insufficientAvailable) ∧
    ((ledgerItem (allocate_stock stateFifty 40 "ORD-1")).map
        (fun i => i.quantityAvailable) = some 0) := by
  refine ⟨?_, ?_, rfl, rfl⟩
  · simp only [allocate_stock, hit]
    by_cases hc : it.quantityOnHand - it.quantityAllocated < q
    · rw [if_pos hc]
      simpa using hc
    · rw [if_neg hc]
      simp [hc]
  · intro hc
    simp only [allocate_stock, hit]
    rw [if_neg hc]

/-- Witness for `allocate_stock_spec` on the spec §8 scenario record. -/
theorem allocate_stock_spec_witness :
    allocate_stock stateFifty 45 "ORD-1" =
      Except.error LedgerError.insufficientAvailable :=
  (allocate_stock_spec stateFifty itemFifty 45 "ORD-1" rfl).1.mpr
    (by decide)

/-- C5: a successful allocate of `q` followed by a successful deallocate of
`q` returns the allocation (and the derived availability) to its prior
value and appends exactly two audit rows whose quantity-change deltas sum
to zero. -/
theorem allocate_deallocate_roundtrip (s : LedgerState)
    (it : InventoryItem) (q : Int) (ref reason : String)
    (s1 s2 : LedgerState) (hit : s.item = some it)
    (hav : it.quantityAvailable =
      it.quantityOnHand - it.quantityAllocated)
    (h1 : allocate_stock s q ref = Except.ok s1)
    (h2 : deallocate_stock s1 q reason = Except.ok s2) :
    ∃ it2, s2.item = some it2 ∧
      it2.quantityAllocated = it.quantityAllocated ∧
      it2.quantityAvailable = it.quantityAvailable ∧
      ∃ e1 e2, s2.audit = s.audit ++ [e1, e2] ∧
        e1.quantityChange + e2.quantityChange = 0 := by
  simp only [allocate_stock, hit] at h1
  by_cases hc : it.quantityOnHand - it.quantityAllocated < q
  · rw [if_pos hc] at h1
    exact absurd h1 (by simp)
  · rw [if_neg hc] at h1
    simp only [Except.ok.injEq] at h1
    subst h1
    simp only [deallocate_stock] at h2
    by_cases hd : it.quantityAllocated + q < q
    · rw [if_pos hd] at h2
      exact absurd h2 (by simp)
    · rw [if_neg hd] at h2
      simp only [Except.ok.injEq] at h2
      subst h2
      refine ⟨_, rfl, ?_, ?_, _, _, List.append_assoc _ _ _, ?_⟩
      · show it.quantityAllocated + q - q = it.quantityAllocated
        omega
      · show it.quantityOnHand - (it.quantityAllocated + q - q) =
          it.quantityAvailable
        omega
      · show q + -q = 0
        omega

/-- Witness for `allocate_deallocate_roundtrip`: a concrete round trip of
quantity 7 on the on-hand-50/allocated-10 record. -/
theorem allocate_deallocate_roundtrip_witness :
    ∃ it2, (deallocate_stock
        { item := some
            { quantityOnHand := 50, quantityAllocated := 17,
              quantityAvailable := 33, lotNumber := none,
              lastCountedAt := none, lastMovementAt := none },
          location := demoLocation,
          audit := [{ entityType := "inventory_item",
                      action := "allocation", movementType := none,
                      quantityBefore := none, quantityAfter := none,
                      quantityChange := 7,
                      reason := some "Stock allocated for order ORD-2",
                      referenceNumber := some "ORD-2",
                      performedBy := none,
                      agentName := "operations_agent" }] }
        7 "order cancelled").toOption.bind
        (fun st => st.item) = some it2 ∧
      it2.quantityAllocated = itemFifty.quantityAllocated ∧
      it2.quantityAvailable = itemFifty.quantityAvailable := by
  obtain ⟨it2, hmem, hall, hava, -⟩ :=
    allocate_deallocate_roundtrip stateFifty itemFifty 7 "ORD-2"
      "order cancelled" _ _ rfl (by decide) rfl rfl
  exact ⟨it2, by rw [← hmem]; rfl, hall, hava⟩

/-- C10: a successful allocate or deallocate leaves the location row (in
particular `current_units` and `capacity_units`) untouched and changes only
the record's allocation and derived availability — on-hand, lot and the
timestamps are unchanged. -/
theorem allocate_deallocate_frame (s : LedgerState) (q : Int)
    (ref reason : String) (s' : LedgerState) :
    (allocate_stock s q ref = Except.ok s' →
      s'.location = s.location ∧
      ∀ it it', s.item = some it → s'.item = some it' →
        it'.quantityOnHand = it.quantityOnHand ∧
        it'.lotNumber = it.lotNumber ∧
        it'.lastCountedAt = it.lastCountedAt ∧
        it'.lastMovementAt = it.lastMovementAt) ∧
    (deallocate_stock s q reason = Except.ok s' →
      s'.location = s.location ∧
      ∀ it it', s.item = some it → s'.item = some it' →
        it'.quantityOnHand = it.quantityOnHand ∧
        it'.lotNumber = it.lotNumber ∧
        it'.lastCountedAt = it.lastCountedAt ∧
        it'.lastMovementAt = it.lastMovementAt) := by
  constructor
  · intro h
    cases hsi : s.item with
    | none =>
        simp only [allocate_stock, hsi] at h
        exact absurd h (by simp)
    | some it =>
        simp only [allocate_stock, hsi] at h
        by_cases hc : it.quantityOnHand - it.quantityAllocated < q
        · rw [if_pos hc] at h
          exact absurd h (by simp)
        · rw [if_neg hc] at h
          simp only [Except.ok.injEq] at h
          subst h
          refine ⟨rfl, ?_⟩
          intro it0 it' h0 h'
          simp only [Option.some.injEq] at h0 h'
          subst h0
          subst h'
          exact ⟨rfl, rfl, rfl, rfl⟩
  · intro h
    cases hsi : s.item with
    | none =>
        simp only [deallocate_stock, hsi] at h
        exact absurd h (by simp)
    | some it =>
        simp only [deallocate_stock, hsi] at h
        by_cases hc : it.quantityAllocated < q
        · rw [if_pos hc] at h
          exact absurd h (by simp)
        · rw [if_neg hc] at h
          simp only [Except.ok.injEq] at h
          subst h
          refine ⟨rfl, ?_⟩
          intro it0 it' h0 h'
          simp only [Option.some.injEq] at h0 h'
          subst h0
          subst h'
          exact ⟨rfl, rfl, rfl, rfl⟩

/-- Witness for `allocate_deallocate_frame`: the concrete allocate of 40 on
the scenario record leaves the location row untouched. -/
theorem allocate_deallocate_frame_witness :
    stateFiftyAllocated.location = stateFifty.location :=
  ((allocate_deallocate_frame stateFifty 40 "ORD-1" "r"
    stateFiftyAllocated).1 (by rfl)).1

/-- C2 (amended): a reconcile whose counted quantity differs from on-hand is
not rejected — `reconcile_inventory` has no error branch at all — and it
commits on-hand = counted with available recomputed against the untouched
allocation, so available is committed negative exactly when counted is
below the allocation. -/
theorem reconcile_commits_any_count (s : LedgerState) (it : InventoryItem)
    (counted : Int) (performedBy : String) (reason : Option String)
    (now : Nat) (hit : s.item = some it)
    (hvar : counted ≠ it.quantityOnHand) :
    (∃ s' info,
      reconcile_inventory s counted performedBy reason now =
        Except.ok (s', info) ∧
      info.adjustmentMade = true ∧
      ∃ it', s'.item = some it' ∧
        it'.quantityOnHand = counted ∧
        it'.quantityAllocated = it.quantityAllocated ∧
        it'.quantityAvailable = counted - it.quantityAllocated ∧
        (counted < it.quantityAllocated → it'.quantityAvailable < 0)) ∧
    (∀ (s0 : LedgerState) (c : Int) (pb : String) (r : Option String)
        (n : Nat) (e : LedgerError),
      reconcile_inventory s0 c pb r n ≠ Except.error e) := by
  constructor
  · have hvz : ¬(counted - it.quantityOnHand = 0) := by omega
    simp only [reconcile_inventory, hit]
    rw [if_neg hvz]
    refine ⟨_, _, rfl, rfl, _, rfl, rfl, rfl, rfl, ?_⟩
    intro hlt
    show counted - it.quantityAllocated < 0
    omega
  · intro s0 c pb r n e h
    unfold reconcile_inventory at h
    by_cases hz : c - (match s0.item with
        | some it => it.quantityOnHand
        | none => 0) = 0
    · rw [if_pos hz] at h
      exact Except.noConfusion h
    · rw [if_neg hz] at h
      exact Except.noConfusion h

/-- Counterexample to C2 as stated: reconciling a count of 0 against the
consistent on-hand-10/allocated-5 record is not rejected with
`ReconciliationBelowAllocated`; it commits, with available −5. -/
theorem reconcile_below_allocated_commits :
    reconcileSucceeded
        (reconcile_inventory stateTenFive 0 "system" none 7) = true ∧
    reconciledAvailable
        (reconcile_inventory stateTenFive 0 "system" none 7) =
      some (-5) ∧
    (0 : Int) < itemTenFive.quantityAllocated := by
  refine ⟨rfl, rfl, by decide⟩

/-- Witness for `reconcile_commits_any_count` on the concrete
below-allocation count. -/
theorem reconcile_commits_any_count_witness :
    ∃ s' info,
      reconcile_inventory stateTenFive 0 "system" none 7 =
        Except.ok (s', info) ∧
      info.adjustmentMade = true ∧
      ∃ it', s'.item = some it' ∧
        it'.quantityOnHand = 0 ∧
        it'.quantityAllocated = itemTenFive.quantityAllocated ∧
        it'.quantityAvailable = 0 - itemTenFive.quantityAllocated ∧
        (0 < itemTenFive.quantityAllocated →
          it'.quantityAvailable < 0) :=
  (reconcile_commits_any_count stateTenFive itemTenFive 0 "system" none 7
    rfl (by decide)).1

theorem apply_stock_change_ne_capacity (s : LedgerState)
    (it : InventoryItem) (quantityChange : Int)
    (movementType : MovementType) (reason reference : Option String)
    (now : Nat) :
    apply_stock_change s it quantityChange movementType reason reference
      now ≠ Except.error LedgerError.capacityExceeded := by
  simp only [apply_stock_change]
  split_ifs with hq
  · simp
  · simp

theorem apply_stock_change_ok_location (s : LedgerState)
    (it : InventoryItem) (quantityChange : Int)
    (movementType : MovementType) (reason reference : Option String)
    (now : Nat) (s' : LedgerState)
    (h : apply_stock_change s it quantityChange movementType reason
      reference now = Except.ok s') :
    s'.location.currentUnits = s.location.currentUnits + quantityChange ∧
    s'.location.capacityUnits = s.location.capacityUnits := by
  simp only [apply_stock_change] at h
  split_ifs at h with hq
  simp only [Except.ok.injEq] at h
  subst h
  exact ⟨rfl, rfl⟩

/-- C3 (amended): `update_stock_quantity` performs no capacity check — it
can never fail with `CapacityExceeded` — and on success it changes the
location's usage counter by exactly the requested delta while leaving the
capacity unchanged, so exceeding `capacity_units` (or draining below 0) is
committed silently. -/
theorem update_stock_location_units (s : LedgerState)
    (quantityChange : Int) (movementType : MovementType)
    (reason reference : Option String) (now : Nat) :
    (update_stock_quantity s quantityChange movementType reason reference
        now ≠ Except.error LedgerError.capacityExceeded) ∧
    (∀ s', update_stock_quantity s quantityChange movementType reason
        reference now = Except.ok s' →
      s'.location.currentUnits = s.location.currentUnits + quantityChange ∧
      s'.location.capacityUnits = s.location.capacityUnits) := by
  constructor
  · intro h
    unfold update_stock_quantity at h
    cases hsi : s.item with
    | none =>
        rw [hsi] at h
        by_cases hneg : quantityChange < 0
        · rw [if_pos hneg] at h
          simp at h
        · rw [if_neg hneg] at h
          exact apply_stock_change_ne_capacity _ _ _ _ _ _ _ h
    | some it =>
        rw [hsi] at h
        exact apply_stock_change_ne_capacity _ _ _ _ _ _ _ h
  · intro s' h
    unfold update_stock_quantity at h
    cases hsi : s.item with
    | none =>
        rw [hsi] at h
        by_cases hneg : quantityChange < 0
        · rw [if_pos hneg] at h
          exact absurd h (by simp)
        · rw [if_neg hneg] at h
          exact apply_stock_change_ok_location _ _ _ _ _ _ _ _ h
    | some it =>
        rw [hsi] at h
        exact apply_stock_change_ok_location _ _ _ _ _ _ _ _ h

/-- Counterexample to C3 as stated: adding 5 units at a location already at
its capacity of 10 is not rejected with `CapacityExceeded`; the location is
committed at 15 of 10 units. -/
theorem update_stock_exceeds_capacity :
    (ledgerLocation
        (update_stock_quantity stateFull 5 MovementType.receiving none none
          1)).map (fun l => (l.currentUnits, l.capacityUnits)) =
      some (15, 10) ∧
    (10 : Int) < 15 := by
  refine ⟨rfl, by decide⟩

/-- Witness for `update_stock_location_units` on the concrete
capacity-exceeding call. -/
theorem update_stock_location_units_witness :
    stateFullUpdated.location.currentUnits =
      stateFull.location.currentUnits + 5 ∧
    stateFullUpdated.location.capacityUnits =
      stateFull.location.capacityUnits :=
  (update_stock_location_units stateFull 5 MovementType.receiving none none
    1).2 stateFullUpdated (by rfl)

theorem apply_stock_change_ok_item (s : LedgerState) (it : InventoryItem)
    (quantityChange : Int) (movementType : MovementType)
    (reason reference : Option String) (now : Nat) (s' : LedgerState)
    (h : apply_stock_change s it quantityChange movementType reason
      reference now = Except.ok s') :
    s'.item = some
      { it with quantityOnHand := it.quantityOnHand + quantityChange,
                quantityAvailable :=
                  it.quantityOnHand + quantityChange - it.quantityAllocated,
                lastMovementAt := some now } ∧
    ¬it.quantityOnHand + quantityChange < 0 := by
  simp only [apply_stock_change] at h
  split_ifs at h with hq
  simp only [Except.ok.injEq] at h
  subst h
  exact ⟨rfl, hq⟩

/-- C1 (amended): on success every ledger operation re-establishes
`quantity_available = quantity_on_hand - quantity_allocated`, and allocate
and deallocate with a nonnegative quantity preserve the full invariant
`0 ≤ allocated ≤ on-hand`; but `update_stock_quantity` only guarantees the
new on-hand is nonnegative while leaving the allocation untouched — it does
not re-check `allocated ≤ on-hand` — and `reconcile_inventory` likewise
overwrites on-hand with the counted value without re-checking it against
the untouched allocation. -/
theorem ledger_invariant_preservation :
    (∀ (s : LedgerState) (it : InventoryItem) (q : Int) (ref : String)
        (s' : LedgerState) (it' : InventoryItem),
      s.item = some it → stockInvariant it → 0 ≤ q →
      allocate_stock s q ref = Except.ok s' → s'.item = some it' →
      stockInvariant it') ∧
    (∀ (s : LedgerState) (it : InventoryItem) (q : Int) (reason : String)
        (s' : LedgerState) (it' : InventoryItem),
      s.item = some it → stockInvariant it → 0 ≤ q →
      deallocate_stock s q reason = Except.ok s' → s'.item = some it' →
      stockInvariant it') ∧
    (∀ (s : LedgerState) (qc : Int) (mt : MovementType)
        (r ref : Option String) (now : Nat) (s' : LedgerState)
        (it' : InventoryItem),
      update_stock_quantity s qc mt r ref now = Except.ok s' →
      s'.item = some it' →
      it'.quantityAvailable =
        it'.quantityOnHand - it'.quantityAllocated ∧
      0 ≤ it'.quantityOnHand ∧
      ∀ it, s.item = some it →
        it'.quantityAllocated = it.quantityAllocated) ∧
    (∀ (s : LedgerState) (counted : Int) (pb : String)
        (r : Option String) (now : Nat) (s' : LedgerState)
        (info : ReconcileInfo) (it' : InventoryItem),
      reconcile_inventory s counted pb r now = Except.ok (s', info) →
      s'.item = some it' →
      (info.adjustmentMade = true →
        it'.quantityAvailable =
          it'.quantityOnHand - it'.quantityAllocated) ∧
      (info.adjustmentMade = false → ∀ it, s.item = some it →
        it'.quantityOnHand = it.quantityOnHand ∧
        it'.quantityAllocated = it.quantityAllocated ∧
        it'.quantityAvailable = it.quantityAvailable)) := by
  refine ⟨?_, ?_, ?_, ?_⟩
  · intro s it q ref s' it' hit hinv hq h hit'
    simp only [allocate_stock, hit] at h
    split_ifs at h with hc
    simp only [Except.ok.injEq] at h
    subst h
    simp only [Option.some.injEq] at hit'
    subst hit'
    obtain ⟨h1, h2, h3⟩ := hinv
    refine ⟨?_, ?_, ?_⟩
    · show 0 ≤ it.quantityAllocated + q
      omega
    · show it.quantityAllocated + q ≤ it.quantityOnHand
      omega
    · rfl
  · intro s it q reason s' it' hit hinv hq h hit'
    simp only [deallocate_stock, hit] at h
    split_ifs at h with hc
    simp only [Except.ok.injEq] at h
    subst h
    simp only [Option.some.injEq] at hit'
    subst hit'
    obtain ⟨h1, h2, h3⟩ := hinv
    refine ⟨?_, ?_, ?_⟩
    · show 0 ≤ it.quantityAllocated - q
      omega
    · show it.quantityAllocated - q ≤ it.quantityOnHand
      omega
    · rfl
  · intro s qc mt r ref now s' it' h hit'
    cases hsi : s.item with
    | none =>
        rw [update_stock_quantity, hsi] at h
        split_ifs at h with hneg
        obtain ⟨hmem, hbound⟩ :=
          apply_stock_change_ok_item _ _ _ _ _ _ _ _ h
        rw [hmem] at hit'
        simp only [Option.some.injEq] at hit'
        subst hit'
        refine ⟨rfl, ?_, ?_⟩
        · show 0 ≤ 0 + qc
          omega
        · intro it0 hit0
          exact Option.noConfusion hit0
    | some it =>
        rw [update_stock_quantity, hsi] at h
        obtain ⟨hmem, hbound⟩ :=
          apply_stock_change_ok_item _ _ _ _ _ _ _ _ h
        rw [hmem] at hit'
        simp only [Option.some.injEq] at hit'
        subst hit'
        refine ⟨rfl, ?_, ?_⟩
        · show 0 ≤ it.quantityOnHand + qc
          omega
        · intro it0 hit0
          simp only [Option.some.injEq] at hit0
          subst hit0
          rfl
  · intro s counted pb r now s' info it' h hit'
    cases hsi : s.item with
    | none =>
        simp only [reconcile_inventory, hsi] at h
        by_cases hz : counted - 0 = 0
        · rw [if_pos hz] at h
          simp only [Except.ok.injEq, Prod.mk.injEq] at h
          obtain ⟨hs', hinfo⟩ := h
          subst hs'
          subst hinfo
          simp only [Option.map_none'] at hit'
          exact Option.noConfusion hit'
        · rw [if_neg hz] at h
          simp only [Except.ok.injEq, Prod.mk.injEq] at h
          obtain ⟨hs', hinfo⟩ := h
          subst hs'
          subst hinfo
          simp only [Option.some.injEq] at hit'
          subst hit'
          constructor
          · intro _
            show counted = counted - 0
            omega
          · intro hfalse
            exact absurd hfalse (by simp)
    | some it =>
        simp only [reconcile_inventory, hsi] at h
        by_cases hz : counted - it.quantityOnHand = 0
        · rw [if_pos hz] at h
          simp only [Except.ok.injEq, Prod.mk.injEq] at h
          obtain ⟨hs', hinfo⟩ := h
          subst hs'
          subst hinfo
          simp only [Option.map_some', Option.some.injEq] at hit'
          subst hit'
          constructor
          · intro htrue
            exact absurd htrue (by simp)
          · intro _ it0 hit0
            simp only [Option.some.injEq] at hit0
            subst hit0
            exact ⟨rfl, rfl, rfl⟩
        · rw [if_neg hz] at h
          simp only [Except.ok.injEq, Prod.mk.injEq] at h
          obtain ⟨hs', hinfo⟩ := h
          subst hs'
          subst hinfo
          simp only [Option.some.injEq] at hit'
          subst hit'
          constructor
          · intro _
            rfl
          · intro hfalse
            exact absurd hfalse (by simp)

/-- Counterexample to C1 as stated: removing 8 units from the consistent
on-hand-10/allocated-5 record succeeds and commits on-hand 2 with the
allocation still 5, violating `quantity_allocated ≤ quantity_on_hand`. -/
theorem update_stock_breaks_allocation_bound :
    (ledgerItem
        (update_stock_quantity stateTenFive (-8) MovementType.pick none
          none 3)).map
      (fun it => (it.quantityOnHand, it.quantityAllocated)) =
      some (2, 5) ∧
    (2 : Int) < 5 := by
  refine ⟨rfl, by decide⟩

/-- Witness for `ledger_invariant_preservation`: the scenario allocate of
40 preserves the invariant. -/
theorem ledger_invariant_preservation_witness :
    stockInvariant
      { quantityOnHand := 50, quantityAllocated := 50,
        quantityAvailable := 0, lotNumber := none, lastCountedAt := none,
        lastMovementAt := none } :=
  ledger_invariant_preservation.1 stateFifty itemFifty 40 "ORD-1" _ _
    rfl (by decide) (by decide) rfl rfl

/-- C7 (amended): the pick-route anchor is the first active shipping-type
node of the graph; absent one, it falls back (not an error) to the first
graph node in insertion order — `list(G.nodes())[0]`, i.e. the first active
location of the location list — which is deterministic for a fixed list
order but is not the node with the lowest location code. -/
theorem start_location_anchor (locs : List Location)
    (hne : (build_warehouse_graph locs).nodes ≠ []) :
    ∃ c, start_location (build_warehouse_graph locs) = some c ∧
      c ∈ (build_warehouse_graph locs).nodes.map (fun l => l.code) ∧
      ((∃ s, ((build_warehouse_graph locs).nodes.filter
            (fun l => l.locationType = LocationType.shipping)).head? =
              some s ∧
          c = s.code ∧ s.isActive = true ∧
          s.locationType = LocationType.shipping ∧
          s ∈ (build_warehouse_graph locs).nodes) ∨
        ((build_warehouse_graph locs).nodes.filter
            (fun l => l.locationType = LocationType.shipping) = [] ∧
          some c = ((build_warehouse_graph locs).nodes.map
            (fun l => l.code)).head?)) := by
  cases hf : (build_warehouse_graph locs).nodes.filter
      (fun l => l.locationType = LocationType.shipping) with
  | cons s rest =>
      have hsmemf : s ∈ (build_warehouse_graph locs).nodes.filter
          (fun l => l.locationType = LocationType.shipping) := by
        rw [hf]
        exact List.mem_cons_self s rest
      have hsmem := List.mem_of_mem_filter hsmemf
      have hstype : s.locationType = LocationType.shipping := by
        have := List.of_mem_filter hsmemf
        exact of_decide_eq_true this
      have hsact : s.isActive = true := by
        have : s ∈ locs.filter (fun l => l.isActive) := hsmem
        exact List.of_mem_filter this
      refine ⟨s.code, ?_, List.mem_map_of_mem _ hsmem,
        Or.inl ⟨s, rfl, rfl, hsact, hstype, hsmem⟩⟩
      simp only [start_location, hf]
  | nil =>
      obtain ⟨n, ns, hn⟩ :
          ∃ n ns, (build_warehouse_graph locs).nodes = n :: ns := by
        cases hnn : (build_warehouse_graph locs).nodes with
        | nil => exact absurd hnn hne
        | cons a l => exact ⟨a, l, rfl⟩
      refine ⟨n.code, ?_, ?_, Or.inr ⟨rfl, ?_⟩⟩
      · simp only [start_location, hf]
        rw [hn]
        rfl
      · rw [hn]
        exact List.mem_map_of_mem _ (List.mem_cons_self n ns)
      · rw [hn]
        rfl

/-- Counterexample to C7 as stated: a graph with no shipping node whose
insertion order is `B-01` then `A-00` anchors at `B-01`, not at the lowest
location code `A-00`. -/
theorem start_location_not_lowest_code :
    start_location (build_warehouse_graph [anchorLocB, anchorLocA]) =
      some "B-01" ∧
    "A-00" ∈ (build_warehouse_graph [anchorLocB, anchorLocA]).nodes.map
      (fun l => l.code) ∧
    (∀ l ∈ (build_warehouse_graph [anchorLocB, anchorLocA]).nodes,
      l.locationType ≠ LocationType.shipping) ∧
    ("A-00" : String) < "B-01" := by
  refine ⟨rfl, by decide, by decide, ?_⟩
  rw [String.lt_iff_toList_lt]
  decide

/-- Witness for `start_location_anchor` on the two-node no-shipping graph. -/
theorem start_location_anchor_witness :
    ∃ c, start_location (build_warehouse_graph [anchorLocB, anchorLocA]) =
        some c ∧
      c ∈ (build_warehouse_graph [anchorLocB, anchorLocA]).nodes.map
        (fun l => l.code) ∧
      ((∃ s, ((build_warehouse_graph [anchorLocB, anchorLocA]).nodes.filter
            (fun l => l.locationType = LocationType.shipping)).head? =
              some s ∧
          c = s.code ∧ s.isActive = true ∧
          s.locationType = LocationType.shipping ∧
          s ∈ (build_warehouse_graph [anchorLocB, anchorLocA]).nodes) ∨
        ((build_warehouse_graph [anchorLocB, anchorLocA]).nodes.filter
            (fun l => l.locationType = LocationType.shipping) = [] ∧
          some c = ((build_warehouse_graph [anchorLocB, anchorLocA]).nodes.map
            (fun l => l.code)).head?)) :=
  start_location_anchor [anchorLocB, anchorLocA] (by decide)

theorem mem_insertStable {α : Type} (lt : α → α → Bool) (x y : α) :
    ∀ (l : List α), x ∈ insertStable lt y l ↔ x = y ∨ x ∈ l := by
  intro l
  induction l with
  | nil => simp [insertStable]
  | cons z zs ih =>
      simp only [insertStable]
      split_ifs with hlt
      · simp
      · simp only [List.mem_cons, ih]
        tauto

theorem mem_stableSort {α : Type} (lt : α → α → Bool) (x : α) :
    ∀ (l : List α), x ∈ stableSort lt l ↔ x ∈ l := by
  intro l
  induction l with
  | nil => simp [stableSort]
  | cons z zs ih =>
      simp only [stableSort, mem_insertStable, ih, List.mem_cons]

theorem mem_velocity_foldl (preferredZones : List String)
    (L : List Location) :
    ∀ (acc : List PutawaySuggestion) (x : PutawaySuggestion),
      x ∈ L.foldl
        (fun acc loc =>
          if (acc.map (fun s => s.locationCode)).contains loc.code then acc
          else acc ++ [velocitySuggestion preferredZones loc]) acc →
      x ∈ acc ∨ ∃ loc, loc ∈ L ∧ x = velocitySuggestion preferredZones loc := by
  induction L with
  | nil =>
      intro acc x hx
      exact Or.inl hx
  | cons l ls ih =>
      intro acc x hx
      simp only [List.foldl_cons] at hx
      rcases ih _ x hx with hacc | ⟨loc, hloc, hxe⟩
      · by_cases hc :
          ((acc.map (fun s => s.locationCode)).contains l.code : Bool)
        · rw [if_pos hc] at hacc
          exact Or.inl hacc
        · rw [if_neg hc] at hacc
          rcases List.mem_append.mp hacc with h | h
          · exact Or.inl h
          · refine Or.inr ⟨l, List.mem_cons_self l ls, ?_⟩
            simpa using h
      · exact Or.inr ⟨loc, List.mem_cons_of_mem l hloc, hxe⟩

/-- C8 (amended): the putaway advisor returns `NoSuitableLocation` exactly
when no location passes the typed candidate query (active, required type,
temperature control when cold, enough free capacity); every suggestion not
marked as consolidation comes from a location passing that query; but a
consolidation suggestion (existing stock of the product) is checked only
for positive existing stock and sufficient remaining capacity — its
location's type, activity and temperature control are not re-checked. -/
theorem putaway_suggestions_characterized (p : Product) (quantity : Int)
    (lotNumber : Option String) (locations : List Location)
    (existing : List ExistingInventory) :
    (get_optimal_putaway_location p quantity lotNumber locations existing =
        Except.error PutawayError.noSuitableLocation ↔
      locations.filter (putaway_candidate p quantity) = []) ∧
    (∀ r, get_optimal_putaway_location p quantity lotNumber locations
        existing = Except.ok r →
      ∀ s, s ∈ r.suggestions →
        (s.consolidation = false →
          ∃ loc, loc ∈ locations ∧ loc.code = s.locationCode ∧
            putaway_candidate p quantity loc = true) ∧
        (s.consolidation = true →
          ∃ inv, inv ∈ existing ∧ inv.location.code = s.locationCode ∧
            0 < inv.quantityOnHand ∧
            quantity ≤ inv.location.capacityUnits -
              inv.location.currentUnits)) := by
  constructor
  · simp only [get_optimal_putaway_location]
    split_ifs with hemp
    · exact iff_of_true rfl (List.isEmpty_iff.mp hemp)
    · refine iff_of_false (by simp) (fun hh => hemp ?_)
      exact List.isEmpty_iff.mpr hh
  · intro r h s hs
    simp only [get_optimal_putaway_location] at h
    split_ifs at h with hemp
    simp only [Except.ok.injEq] at h
    subst h
    simp only at hs
    have hs' := List.take_subset 5 _ hs
    rw [mem_stableSort] at hs'
    rcases mem_velocity_foldl _ _ _ _ hs' with hcons | ⟨loc, hloc, hxe⟩
    · rcases List.mem_filterMap.mp hcons with ⟨inv, hinv, hsome⟩
      have hinv' := List.mem_filter.mp hinv
      have hqoh : 0 < inv.quantityOnHand := by
        have := hinv'.2
        exact of_decide_eq_true this
      simp only [consolidationSuggestion] at hsome
      split_ifs at hsome with hcap hlot
      all_goals
        simp only [Option.some.injEq] at hsome
        subst hsome
        exact ⟨fun hfalse => absurd hfalse (by simp),
          fun _ => ⟨inv, hinv'.1, rfl, hqoh, hcap⟩⟩
    · subst hxe
      constructor
      · intro _
        have hloc' := List.mem_filter.mp hloc
        exact ⟨loc, hloc'.1, rfl, hloc'.2⟩
      · intro htrue
        exact absurd htrue (by simp [velocitySuggestion])

/-- Counterexample to C8 as stated: for a cold-storage product, existing
stock of the product at an ordinary storage location without temperature
control makes that location a top-five suggestion, though it is not of the
required cold-storage type. -/
theorem putaway_suggests_wrong_type :
    (putawayCodes
        (get_optimal_putaway_location coldProduct 5 none
          [coldLocation, plainLocation]
          [{ location := plainLocation, quantityOnHand := 7,
             lotNumber := none }])).contains "GEN-1" = true ∧
    plainLocation.locationType ≠ required_location_type coldProduct ∧
    plainLocation.hasTemperatureControl = false := by
  refine ⟨rfl, by decide, rfl⟩

/-- Witness for `putaway_suggestions_characterized`: with no qualifying
cold-storage location at all, the advisor reports `NoSuitableLocation`
(spec §8's putaway scenario). -/
theorem putaway_suggestions_characterized_witness :
    get_optimal_putaway_location coldProduct 5 none [plainLocation] [] =
      Except.error PutawayError.noSuitableLocation :=
  (putaway_suggestions_characterized coldProduct 5 none [plainLocation]
    []).1.mpr (by decide)

theorem distSq_comm (l1 l2 : Location) : distSq l1 l2 = distSq l2 l1 := by
  unfold distSq
  ring

theorem euclidean_distance_lt_20_iff (l1 l2 : Location) :
    calculate_distance l1 l2 < 20 ↔ distSq l1 l2 < 400 := by
  unfold calculate_distance
  rw [Real.sqrt_lt' (by norm_num : (0 : ℝ) < 20)]
  constructor
  · intro h
    have h' : ((distSq l1 l2 : ℚ) : ℝ) < 400 := by
      calc ((distSq l1 l2 : ℚ) : ℝ) < 20 ^ 2 := h
        _ = 400 := by norm_num
    exact_mod_cast h'
  · intro h
    have h' : ((distSq l1 l2 : ℚ) : ℝ) < 400 := by exact_mod_cast h
    calc ((distSq l1 l2 : ℚ) : ℝ) < 400 := h'
      _ = 20 ^ 2 := by norm_num

theorem mkEdge_eq_some_iff (l1 l2 : Location) (e : GraphEdge) :
    mkEdge l1 l2 = some e ↔
      ((l1.zone = l2.zone ∧ l1.aisle = l2.aisle) ∧
        e = { a := l1.code, b := l2.code, distSq := distSq l1 l2,
              crossAisle := false }) ∨
      ((l1.zone = l2.zone ∧ ¬l1.aisle = l2.aisle ∧ distSq l1 l2 < 400) ∧
        e = { a := l1.code, b := l2.code, distSq := distSq l1 l2,
              crossAisle := true }) := by
  unfold mkEdge
  split_ifs with hA hB
  · simp only [Option.some.injEq]
    constructor
    · intro he
      exact Or.inl ⟨hA, he.symm⟩
    · rintro (⟨_, he⟩ | ⟨⟨hz, hna, _⟩, _⟩)
      · exact he.symm
      · exact absurd hA.2 hna
  · simp only [Option.some.injEq]
    constructor
    · intro he
      refine Or.inr ⟨⟨hB.1, fun ha => hA ⟨hB.1, ha⟩, hB.2⟩, he.symm⟩
    · rintro (⟨hc, _⟩ | ⟨_, he⟩)
      · exact absurd hc hA
      · exact he.symm
  · constructor
    · intro he
      exact he.elim
    · rintro (⟨hc, _⟩ | ⟨⟨hz, _, hd⟩, _⟩)
      · exact absurd hc hA
      · exact absurd ⟨hz, hd⟩ hB

theorem mkEdge_isSome_of_cond (l1 l2 : Location)
    (hcond : (l1.zone = l2.zone ∧ l1.aisle = l2.aisle) ∨
      (l1.zone = l2.zone ∧ distSq l1 l2 < 400)) :
    ∃ e, mkEdge l1 l2 = some e ∧ e.a = l1.code ∧ e.b = l2.code := by
  unfold mkEdge
  split_ifs with hA hB
  · exact ⟨_, rfl, rfl, rfl⟩
  · exact ⟨_, rfl, rfl, rfl⟩
  · exfalso
    rcases hcond with h | h
    · exact hA h
    · exact hB h

theorem edge_cond_symm (l1 l2 : Location) :
    ((l1.zone = l2.zone ∧ l1.aisle = l2.aisle) ∨
      (l1.zone = l2.zone ∧ distSq l1 l2 < 400)) ↔
    ((l2.zone = l1.zone ∧ l2.aisle = l1.aisle) ∨
      (l2.zone = l1.zone ∧ distSq l2 l1 < 400)) := by
  rw [distSq_comm]
  constructor
  · rintro (⟨hz, ha⟩ | ⟨hz, hd⟩)
    · exact Or.inl ⟨hz.symm, ha.symm⟩
    · exact Or.inr ⟨hz.symm, hd⟩
  · rintro (⟨hz, ha⟩ | ⟨hz, hd⟩)
    · exact Or.inl ⟨hz.symm, ha.symm⟩
    · exact Or.inr ⟨hz.symm, hd⟩

theorem pair_sublist_of_mem {α : Type} {a b : α} :
    ∀ {L : List α}, a ∈ L → b ∈ L → a ≠ b →
      List.Sublist [a, b] L ∨ List.Sublist [b, a] L := by
  intro L
  induction L with
  | nil =>
      intro ha
      exact absurd ha (List.not_mem_nil a)
  | cons x xs ih =>
      intro ha hb hne
      rcases List.mem_cons.mp ha with hax | hax
      · subst hax
        rcases List.mem_cons.mp hb with hbx | hbx
        · exact absurd hbx.symm hne
        · exact Or.inl
            (List.Sublist.cons₂ a (List.singleton_sublist.mpr hbx))
      · rcases List.mem_cons.mp hb with hbx | hbx
        · subst hbx
          exact Or.inr
            (List.Sublist.cons₂ b (List.singleton_sublist.mpr hax))
        · rcases ih hax hbx hne with h | h
          · exact Or.inl (List.Sublist.cons x h)
          · exact Or.inr (List.Sublist.cons x h)

theorem mem_edgePairs (e : GraphEdge) :
    ∀ (L : List Location),
      e ∈ edgePairs L ↔
        ∃ l1 l2, List.Sublist [l1, l2] L ∧ mkEdge l1 l2 = some e := by
  intro L
  induction L with
  | nil =>
      constructor
      · intro h
        simp only [edgePairs] at h
        exact absurd h (List.not_mem_nil e)
      · rintro ⟨l1, l2, hsub, -⟩
        have := hsub.length_le
        simp at this
  | cons l rest ih =>
      simp only [edgePairs, List.mem_append, List.mem_filterMap, ih]
      constructor
      · rintro (⟨l2, hl2, hmk⟩ | ⟨l1, l2, hsub, hmk⟩)
        · exact ⟨l, l2,
            List.Sublist.cons₂ l (List.singleton_sublist.mpr hl2), hmk⟩
        · exact ⟨l1, l2, List.Sublist.cons l hsub, hmk⟩
      · rintro ⟨l1, l2, hsub, hmk⟩
        cases hsub with
        | cons a h => exact Or.inr ⟨l1, l2, h, hmk⟩
        | cons₂ a h =>
            exact Or.inl ⟨l2, List.singleton_sublist.mp h, hmk⟩

theorem edge_data_oriented (L : List Location) (l1 l2 : Location)
    (hnd : ((build_warehouse_graph L).nodes.map (fun l => l.code)).Nodup)
    (h1 : l1 ∈ (build_warehouse_graph L).nodes)
    (h2 : l2 ∈ (build_warehouse_graph L).nodes)
    (e : GraphEdge) (he : e ∈ (build_warehouse_graph L).edges)
    (ha : e.a = l1.code) (hb : e.b = l2.code) :
    e.distSq = distSq l1 l2 ∧ l1.zone = l2.zone ∧
    (e.crossAisle = false ↔ l1.aisle = l2.aisle) ∧
    (l1.aisle = l2.aisle ∨ distSq l1 l2 < 400) := by
  have he' : e ∈ edgePairs ((build_warehouse_graph L).nodes) := he
  rcases (mem_edgePairs e _).mp he' with ⟨a, b, hsub, hmk⟩
  have haM : a ∈ (build_warehouse_graph L).nodes := hsub.subset (by simp)
  have hbM : b ∈ (build_warehouse_graph L).nodes := hsub.subset (by simp)
  rcases (mkEdge_eq_some_iff a b e).mp hmk with
    ⟨⟨hz, hai⟩, heq⟩ | ⟨⟨hz, hna, hd⟩, heq⟩
  · subst heq
    have ha' : a.code = l1.code := ha
    have hb' : b.code = l2.code := hb
    have haeq : a = l1 := List.inj_on_of_nodup_map hnd haM h1 ha'
    have hbeq : b = l2 := List.inj_on_of_nodup_map hnd hbM h2 hb'
    subst haeq
    subst hbeq
    exact ⟨rfl, hz, iff_of_true rfl hai, Or.inl hai⟩
  · subst heq
    have ha' : a.code = l1.code := ha
    have hb' : b.code = l2.code := hb
    have haeq : a = l1 := List.inj_on_of_nodup_map hnd haM h1 ha'
    have hbeq : b = l2 := List.inj_on_of_nodup_map hnd hbM h2 hb'
    subst haeq
    subst hbeq
    exact ⟨rfl, hz, iff_of_false (by simp) hna, Or.inr hd⟩

theorem edge_data_determined (L : List Location) (l1 l2 : Location)
    (hnd : ((build_warehouse_graph L).nodes.map (fun l => l.code)).Nodup)
    (h1 : l1 ∈ (build_warehouse_graph L).nodes)
    (h2 : l2 ∈ (build_warehouse_graph L).nodes)
    (e : GraphEdge) (he : e ∈ (build_warehouse_graph L).edges)
    (hmatch : (e.a = l1.code ∧ e.b = l2.code) ∨
      (e.a = l2.code ∧ e.b = l1.code)) :
    e.distSq = distSq l1 l2 ∧ l1.zone = l2.zone ∧
    (e.crossAisle = false ↔ l1.aisle = l2.aisle) ∧
    (l1.aisle = l2.aisle ∨ distSq l1 l2 < 400) := by
  rcases hmatch with ⟨ha, hb⟩ | ⟨ha, hb⟩
  · exact edge_data_oriented L l1 l2 hnd h1 h2 e he ha hb
  · obtain ⟨hds, hz, hcr, hor⟩ :=
      edge_data_oriented L l2 l1 hnd h2 h1 e he ha hb
    refine ⟨hds.trans (distSq_comm l2 l1), hz.symm, ?_, ?_⟩
    · rw [hcr]
      exact eq_comm
    · rcases hor with h | h
      · exact Or.inl h.symm
      · exact Or.inr (distSq_comm l2 l1 ▸ h)

theorem adjacent_of_cond (L : List Location) (l1 l2 : Location)
    (h1 : l1 ∈ (build_warehouse_graph L).nodes)
    (h2 : l2 ∈ (build_warehouse_graph L).nodes)
    (hnel : l1 ≠ l2)
    (hcond : (l1.zone = l2.zone ∧ l1.aisle = l2.aisle) ∨
      (l1.zone = l2.zone ∧ distSq l1 l2 < 400)) :
    adjacent (build_warehouse_graph L) l1.code l2.code = true := by
  rcases pair_sublist_of_mem h1 h2 hnel with hsub | hsub
  · obtain ⟨e, hmk, hea, heb⟩ := mkEdge_isSome_of_cond l1 l2 hcond
    have he : e ∈ (build_warehouse_graph L).edges :=
      (mem_edgePairs e _).mpr ⟨l1, l2, hsub, hmk⟩
    unfold adjacent
    rw [List.any_eq_true]
    refine ⟨e, he, ?_⟩
    rw [decide_eq_true_eq]
    exact Or.inl ⟨hea, heb⟩
  · obtain ⟨e, hmk, hea, heb⟩ :=
      mkEdge_isSome_of_cond l2 l1 ((edge_cond_symm l1 l2).mp hcond)
    have he : e ∈ (build_warehouse_graph L).edges :=
      (mem_edgePairs e _).mpr ⟨l2, l1, hsub, hmk⟩
    unfold adjacent
    rw [List.any_eq_true]
    refine ⟨e, he, ?_⟩
    rw [decide_eq_true_eq]
    exact Or.inr ⟨hea, heb⟩

/-- C6: over any active location set (with distinct codes) the warehouse
graph has an edge between two distinct active locations exactly when they
share zone and aisle, or share a zone and lie strictly within the
20-unit proximity threshold; the stored weight is the Euclidean distance,
multiplied by 1.5 on the aisle-crossing (proximity) edges; and rebuilding
over any permutation of the same location list yields the same adjacency
and the same edge weights. -/
theorem warehouse_graph_edge_rule (locs : List Location) (l1 l2 : Location)
    (hnd : ((build_warehouse_graph locs).nodes.map (fun l => l.code)).Nodup)
    (h1 : l1 ∈ (build_warehouse_graph locs).nodes)
    (h2 : l2 ∈ (build_warehouse_graph locs).nodes)
    (hne : l1.code ≠ l2.code) :
    (adjacent (build_warehouse_graph locs) l1.code l2.code = true ↔
      (l1.zone = l2.zone ∧ l1.aisle = l2.aisle) ∨
      (l1.zone = l2.zone ∧ calculate_distance l1 l2 < 20)) ∧
    (∀ e, edgeBetween (build_warehouse_graph locs) l1.code l2.code =
        some e →
      GraphEdge.weight e =
        if l1.aisle = l2.aisle then calculate_distance l1 l2
        else 1.5 * calculate_distance l1 l2) ∧
    (∀ locs', List.Perm locs locs' →
      adjacent (build_warehouse_graph locs') l1.code l2.code =
        adjacent (build_warehouse_graph locs) l1.code l2.code ∧
      (edgeBetween (build_warehouse_graph locs') l1.code l2.code).map
          GraphEdge.weight =
        (edgeBetween (build_warehouse_graph locs) l1.code l2.code).map
          GraphEdge.weight) := by
  have hnel : l1 ≠ l2 := fun h => hne (congrArg Location.code h)
  have hiffSq : ∀ (L : List Location),
      ((build_warehouse_graph L).nodes.map (fun l => l.code)).Nodup →
      l1 ∈ (build_warehouse_graph L).nodes →
      l2 ∈ (build_warehouse_graph L).nodes →
      (adjacent (build_warehouse_graph L) l1.code l2.code = true ↔
        (l1.zone = l2.zone ∧ l1.aisle = l2.aisle) ∨
        (l1.zone = l2.zone ∧ distSq l1 l2 < 400)) := by
    intro L hndL h1L h2L
    constructor
    · intro hadj
      unfold adjacent at hadj
      rw [List.any_eq_true] at hadj
      obtain ⟨e, he, hp⟩ := hadj
      rw [decide_eq_true_eq] at hp
      obtain ⟨-, hz, -, hor⟩ :=
        edge_data_determined L l1 l2 hndL h1L h2L e he hp
      rcases hor with ha | hd
      · exact Or.inl ⟨hz, ha⟩
      · exact Or.inr ⟨hz, hd⟩
    · intro hcond
      exact adjacent_of_cond L l1 l2 h1L h2L hnel hcond
  have hedgeData : ∀ (L : List Location),
      ((build_warehouse_graph L).nodes.map (fun l => l.code)).Nodup →
      l1 ∈ (build_warehouse_graph L).nodes →
      l2 ∈ (build_warehouse_graph L).nodes →
      ∀ e, edgeBetween (build_warehouse_graph L) l1.code l2.code =
        some e →
      e.distSq = distSq l1 l2 ∧
        (e.crossAisle = false ↔ l1.aisle = l2.aisle) := by
    intro L hndL h1L h2L e hfind
    have he := List.mem_of_find?_eq_some hfind
    have hp := List.find?_some hfind
    rw [decide_eq_true_eq] at hp
    obtain ⟨hds, -, hcr, -⟩ :=
      edge_data_determined L l1 l2 hndL h1L h2L e he hp
    exact ⟨hds, hcr⟩
  have hweight : ∀ e, e.distSq = distSq l1 l2 →
      (e.crossAisle = false ↔ l1.aisle = l2.aisle) →
      GraphEdge.weight e =
        if l1.aisle = l2.aisle then calculate_distance l1 l2
        else 1.5 * calculate_distance l1 l2 := by
    intro e hds hcr
    unfold GraphEdge.weight
    rw [hds]
    by_cases ha : l1.aisle = l2.aisle
    · rw [if_pos ha, hcr.mpr ha]
      simp [calculate_distance]
    · rw [if_neg ha]
      have hcrt : e.crossAisle = true := by
        cases hcror : e.crossAisle
        · exact absurd (hcr.mp hcror) ha
        · rfl
      rw [hcrt]
      simp [calculate_distance]
  refine ⟨?_, ?_, ?_⟩
  · rw [euclidean_distance_lt_20_iff]
    exact hiffSq locs hnd h1 h2
  · intro e hfind
    obtain ⟨hds, hcr⟩ := hedgeData locs hnd h1 h2 e hfind
    exact hweight e hds hcr
  · intro locs' hperm
    have hpermN : List.Perm (build_warehouse_graph locs).nodes
        (build_warehouse_graph locs').nodes := hperm.filter _
    have hnd' : ((build_warehouse_graph locs').nodes.map
        (fun l => l.code)).Nodup := ((hpermN.map _).nodup_iff).mp hnd
    have h1' : l1 ∈ (build_warehouse_graph locs').nodes :=
      hpermN.mem_iff.mp h1
    have h2' : l2 ∈ (build_warehouse_graph locs').nodes :=
      hpermN.mem_iff.mp h2
    have hbool : ∀ (x y : Bool), (x = true ↔ y = true) → x = y := by
      decide
    constructor
    · exact hbool _ _
        ((hiffSq locs' hnd' h1' h2').trans (hiffSq locs hnd h1 h2).symm)
    · by_cases hcond : (l1.zone = l2.zone ∧ l1.aisle = l2.aisle) ∨
        (l1.zone = l2.zone ∧ distSq l1 l2 < 400)
      · have hadj : adjacent (build_warehouse_graph locs) l1.code l2.code =
            true := (hiffSq locs hnd h1 h2).mpr hcond
        have hadj' : adjacent (build_warehouse_graph locs') l1.code
            l2.code = true := (hiffSq locs' hnd' h1' h2').mpr hcond
        have hsome : (edgeBetween (build_warehouse_graph locs) l1.code
            l2.code).isSome := by
          unfold edgeBetween
          rw [List.find?_isSome]
          unfold adjacent at hadj
          rw [List.any_eq_true] at hadj
          exact hadj
        have hsome' : (edgeBetween (build_warehouse_graph locs') l1.code
            l2.code).isSome := by
          unfold edgeBetween
          rw [List.find?_isSome]
          unfold adjacent at hadj'
          rw [List.any_eq_true] at hadj'
          exact hadj'
        obtain ⟨e, he⟩ := Option.isSome_iff_exists.mp hsome
        obtain ⟨e', he'⟩ := Option.isSome_iff_exists.mp hsome'
        rw [he, he']
        obtain ⟨hds, hcr⟩ := hedgeData locs hnd h1 h2 e he
        obtain ⟨hds', hcr'⟩ := hedgeData locs' hnd' h1' h2' e' he'
        simp only [Option.map_some']
        rw [hweight e hds hcr, hweight e' hds' hcr']
      · have hnone : ∀ (L : List Location),
            adjacent (build_warehouse_graph L) l1.code l2.code ≠ true →
            edgeBetween (build_warehouse_graph L) l1.code l2.code =
              none := by
          intro L hadjL
          cases hfind : edgeBetween (build_warehouse_graph L) l1.code
              l2.code with
          | none => rfl
          | some e =>
              exfalso
              apply hadjL
              unfold adjacent
              rw [List.any_eq_true]
              unfold edgeBetween at hfind
              have hmem := List.mem_of_find?_eq_some hfind
              have hp := List.find?_some hfind
              exact ⟨e, hmem, hp⟩
        rw [hnone locs
            (fun h => hcond ((hiffSq locs hnd h1 h2).mp h)),
          hnone locs'
            (fun h => hcond ((hiffSq locs' hnd' h1' h2').mp h))]

/-- Witness for `warehouse_graph_edge_rule` on a concrete two-location
zone: same zone, different aisles, distance 5 < 20. -/
theorem warehouse_graph_edge_rule_witness :
    adjacent (build_warehouse_graph [anchorLocB, anchorLocA])
        anchorLocB.code anchorLocA.code = true ↔
      (anchorLocB.zone = anchorLocA.zone ∧
        anchorLocB.aisle = anchorLocA.aisle) ∨
      (anchorLocB.zone = anchorLocA.zone ∧
        calculate_distance anchorLocB anchorLocA < 20) :=
  (warehouse_graph_edge_rule [anchorLocB, anchorLocA] anchorLocB anchorLocA
    (by decide) (by decide) (by decide) (by decide)).1
